import Mathlib

/-!
Shallow embedding of `db.c` from the watchgit repository: a small persistent
registry mapping aliases to repository paths, backed by SQLite.

Modelling conventions:
* C strings are Lean `String`s (lists of characters); the embedding is faithful
  for strings that contain no NUL character, since a C string cannot.
* The SQLite engine is modelled only to the extent the program exercises it:
  a database value is a list of rows plus an autoincrement counter, and the
  engine recognises exactly the statement shapes `db.c` issues.  Because the
  program builds its SQL by `sprintf`-interpolation, the statement text is
  built and then parsed back.  A double-quoted token runs to the next quote
  character and delimits an identifier: in a `WHERE` clause a token naming a
  column of `repos_table` (`id`, `aliases`, `paths`, or a rowid alias,
  ASCII-case-insensitively) resolves to that column, and only an unresolvable
  token falls back to a string literal — the default-on double-quoted-string
  misfeature, which this program relies on (inside `VALUES(...)` no column is
  in scope, so there the fallback always yields the literal).  A statement
  that does not parse makes `sqlite3_exec` report `SQLITE_ERROR`, as real
  SQLite reports a syntax error.
* `sqlite3_exec` row callbacks follow the documented protocol: the callback is
  invoked once per row, a nonzero callback result aborts the iteration with
  `SQLITE_ABORT`.
* `realpath` is modelled as an explicit parameter `rp : String → Option String`
  (the filesystem's canonicalisation function); `malloc` is assumed to succeed.
* `strtol` is modelled without the `LONG_MAX` clamp; the claims considered
  concern only small stamp values.
-/

namespace WatchGit

/-- SQLite result code `SQLITE_OK` (0). -/
def SQLITE_OK : Int := 0

/-- SQLite result code `SQLITE_ERROR` (1), also returned on a syntax error. -/
def SQLITE_ERROR : Int := 1

/-- SQLite result code `SQLITE_ABORT` (4), returned by `sqlite3_exec` when a
row callback returns nonzero. -/
def SQLITE_ABORT : Int := 4

/-- SQLite result code `SQLITE_CONSTRAINT` (19), returned when a `UNIQUE`
constraint is violated. -/
def SQLITE_CONSTRAINT : Int := 19

/-- Schema version constant, from `db.h`: `#define SCHEMA_VERSION 1`. -/
def SCHEMA_VERSION : Int := 1

/-- The `errno` value `ENOENT` (2). -/
def ENOENT : Int := 2

/-- One row of `repos_table` (`id INTEGER PRIMARY KEY AUTOINCREMENT,
aliases TEXT UNIQUE, paths TEXT UNIQUE`). -/
structure RepoEntry where
  id : Nat
  aliases : String
  paths : String
deriving DecidableEq

/-- The contents of the database file: the rows of `repos_table` in insertion
order together with the next `AUTOINCREMENT` key. -/
structure ReposDB where
  entries : List RepoEntry
  nextId : Nat
deriving DecidableEq

/-- A freshly created database: no rows, autoincrement starts at 1. -/
def emptyDB : ReposDB := ⟨[], 1⟩

/-- Strings on which the embedding of the C code is exact: no double-quote
character (which the `sprintf`-built SQL cannot carry) and no NUL character
(which a C string cannot contain). -/
def CleanStr (s : String) : Prop := '\x22' ∉ s.data ∧ '\x00' ∉ s.data

instance (s : String) : Decidable (CleanStr s) := by
  unfold CleanStr; infer_instance

/-! ### The C library: `strtol` (used by the schema-version parse and by
SQLite's numeric-affinity conversion) -/

/-- The whitespace characters `isspace` accepts in the C locale, as skipped by
`strtol`. -/
def isSpaceChar (c : Char) : Bool :=
  c = ' ' || c = '\t' || c = '\n' || c = '\x0b' || c = '\x0c' || c = '\r'

/-- Longest leading run of decimal digits, and the remainder. -/
def takeDigits : List Char → List Char × List Char
  | [] => ([], [])
  | c :: cs =>
    if c.isDigit then
      let pr := takeDigits cs
      (c :: pr.1, pr.2)
    else ([], c :: cs)

/-- Value of a digit string. -/
def digitsToNat (ds : List Char) : Nat :=
  ds.foldl (fun a c => a * 10 + (c.toNat - 48)) 0

/-- Optional single leading sign, as `strtol` accepts it. -/
def stripSign : List Char → Int × List Char
  | '+' :: r => (1, r)
  | '-' :: r => (-1, r)
  | r => (1, r)

/-- Embedding of `strtol(s, &endptr, 10)`: skip whitespace, one optional sign,
then digits.  Returns the value and the remainder of the string from `endptr`
on; when no digits were consumed the value is `0` and `endptr` is the start of
the input.  (The `LONG_MAX` clamp is not modelled.) -/
def strtol10 (cs : List Char) : Int × List Char :=
  let rest1 := cs.dropWhile isSpaceChar
  let sr := stripSign rest1
  let dr := takeDigits sr.2
  if dr.1 = [] then (0, cs) else (sr.1 * (digitsToNat dr.1 : Int), dr.2)

/-! ### The SQL text the program builds, and the engine's reading of it -/

/-- Literal part of the insert statement before the first value, from the
format string in `add_repo_to_db`. -/
def insertQueryPre : String := "INSERT INTO repos_table (aliases, paths) VALUES(\""

/-- Literal part of the insert statement between the two values. -/
def insertQueryMid : String := "\", \""

/-- Literal part of the insert statement after the second value. -/
def insertQuerySuf : String := "\")"

/-- The exact text `sprintf` produces in `add_repo_to_db` for the format
`INSERT INTO repos_table (aliases, paths) VALUES("%s", "%s")`. -/
def insert_query (aname abspath : String) : String :=
  insertQueryPre ++ aname ++ insertQueryMid ++ abspath ++ insertQuerySuf

/-- Literal part of the single-alias select, from the format string in
`forsome_repos`: `SELECT paths FROM repos_table WHERE aliases="%s"`. -/
def selectAliasPre : String := "SELECT paths FROM repos_table WHERE aliases=\""

/-- Literal part of the delete statement, from the format string in
`remove_repo_from_db`: `DELETE FROM repos_table WHERE aliases="%s"`. -/
def deleteAliasPre : String := "DELETE FROM repos_table WHERE aliases=\""

/-- A single double-quote character, closing the interpolated value. -/
def quoteStr : String := "\""

/-- The exact text `sprintf` produces in `forsome_repos`. -/
def forsome_query (aname : String) : String := selectAliasPre ++ aname ++ quoteStr

/-- The exact text `sprintf` produces in `remove_repo_from_db`. -/
def remove_query (aname : String) : String := deleteAliasPre ++ aname ++ quoteStr

/-- Engine-side: consume an expected literal character sequence from the
statement text; `none` is a syntax error. -/
def dropLit : List Char → List Char → Option (List Char)
  | [], cs => some cs
  | _ :: _, [] => none
  | p :: ps, c :: cs => if c = p then dropLit ps cs else none

/-- Engine-side: read a double-quoted token, which runs to the next
double-quote character; `none` (no closing quote) is a syntax error. -/
def splitAtQuote : List Char → Option (List Char × List Char)
  | [] => none
  | c :: cs =>
    if c = '\x22' then some ([], cs)
    else (splitAtQuote cs).map (fun pr => (c :: pr.1, pr.2))

/-- Engine-side reading of the insert statement: recognises exactly
`INSERT INTO repos_table (aliases, paths) VALUES("…", "…")` and yields the
two values the engine will store.  Anything else is a syntax error. -/
def parseInsertStmt (q : String) : Option (String × String) :=
  (dropLit insertQueryPre.data q.data).bind fun r1 =>
    (splitAtQuote r1).bind fun ar =>
      (dropLit [',', ' ', '\x22'] ar.2).bind fun r3 =>
        (splitAtQuote r3).bind fun pr =>
          if pr.2 = [')'] then some (String.mk ar.1, String.mk pr.1) else none

/-- Lower-case an ASCII letter, identity on everything else: SQLite resolves
identifiers ASCII-case-insensitively. -/
def asciiLower (c : Char) : Char :=
  if 65 ≤ c.toNat ∧ c.toNat ≤ 90 then Char.ofNat (c.toNat + 32) else c

/-- ASCII-lower-case an identifier token. -/
def asciiLowerStr (s : String) : String := String.mk (s.data.map asciiLower)

/-- What the double-quoted token in `… WHERE aliases="token"` denotes once
SQLite has resolved it.  A double quote delimits an identifier, so a token
naming a column of `repos_table` — `aliases`, `paths`, or the rowid alias
`id` (also reachable as `rowid`, `oid`, `_rowid_`), matched
ASCII-case-insensitively — is a column reference; any other token falls back
to a string literal under the default-on double-quoted-string misfeature. -/
inductive WhereRhs where
  | lit (s : String)
  | colId
  | colAliases
  | colPaths
deriving DecidableEq

/-- Resolution of the double-quoted token against `repos_table` (see
`WhereRhs`). -/
def resolveToken (t : String) : WhereRhs :=
  let l := asciiLowerStr t
  if l = "aliases" then WhereRhs.colAliases
  else if l = "paths" then WhereRhs.colPaths
  else if l = "id" ∨ l = "rowid" ∨ l = "oid" ∨ l = "_rowid_" then WhereRhs.colId
  else WhereRhs.lit t

/-- Comparison of the TEXT column `aliases` with the INTEGER column `id`:
SQLite applies numeric affinity to the text operand, so the row matches when
the alias text is a well-formed integer literal (optional leading whitespace,
optional sign, digits, nothing after) whose value is the row's `id`.  Real
literals such as `"4.0"` are not modelled; no theorem below depends on this
branch. -/
def textIntEq (s : String) (n : Nat) : Bool :=
  ((strtol10 s.data).2 == []) && (!(s.data == [])) &&
    ((strtol10 s.data).1 == (n : Int))

/-- Evaluation of the `WHERE` predicate `aliases = rhs` on one row. -/
def whereMatch (rhs : WhereRhs) (e : RepoEntry) : Bool :=
  match rhs with
  | WhereRhs.lit s => e.aliases == s
  | WhereRhs.colAliases => true
  | WhereRhs.colPaths => e.aliases == e.paths
  | WhereRhs.colId => textIntEq e.aliases e.id

/-- Engine-side reading of a `… WHERE aliases="…"` statement (used for both
the single-alias select and the delete): yields the resolved right-hand side
of the comparison against the `aliases` column.  Anything else is a syntax
error. -/
def parseWhereAliasStmt (pre : String) (q : String) : Option WhereRhs :=
  (dropLit pre.data q.data).bind fun r1 =>
    (splitAtQuote r1).bind fun ar =>
      if ar.2 = [] then some (resolveToken (String.mk ar.1)) else none

/-! ### Engine execution -/

/-- Engine-side insert into `repos_table`: both `aliases` and `paths` carry a
`UNIQUE` constraint, so a duplicate in either column fails with
`SQLITE_CONSTRAINT` and changes nothing; otherwise the row is appended with
the next autoincrement key. -/
def execInsert (db : ReposDB) (aname path : String) : Int × ReposDB :=
  if db.entries.any (fun e => e.aliases == aname || e.paths == path) then
    (SQLITE_CONSTRAINT, db)
  else
    (SQLITE_OK, ⟨db.entries ++ [⟨db.nextId, aname, path⟩], db.nextId + 1⟩)

/-- Embedding of `foreach_repo_callback` from `db.c`: for `i = 0 .. argc-1`
it unconditionally runs `status |= callback(col_name[i], argv[i])` and returns
the accumulated `status`.  The second component records the invocations of the
caller-supplied handler, in order. -/
def foreach_repo_callback (cb : String → String → Int)
    (row : List (String × String)) : Int × List (String × String) :=
  (row.foldl (fun st cv => Int.lor st (cb cv.1 cv.2)) 0, row)

/-- `sqlite3_exec` driving `foreach_repo_callback` over the result rows: a
nonzero callback result aborts with `SQLITE_ABORT`, otherwise all rows are
visited and the result is `SQLITE_OK`.  The second component is the trace of
handler invocations. -/
def execWithCallback (cb : String → String → Int) :
    List (List (String × String)) → Int × List (String × String)
  | [] => (SQLITE_OK, [])
  | row :: rest =>
    let pr := foreach_repo_callback cb row
    if pr.1 ≠ 0 then (SQLITE_ABORT, pr.2)
    else
      let pr2 := execWithCallback cb rest
      (pr2.1, pr.2 ++ pr2.2)

/-! ### Ordering used by `ORDER BY aliases ASC` (byte-wise, SQLite's BINARY
collation; on UTF-8 data this agrees with code-point order) -/

/-- Lexicographic comparison of character lists by code point. -/
def lexLe : List Char → List Char → Bool
  | [], _ => true
  | _ :: _, [] => false
  | a :: as, b :: bs =>
    if a.toNat < b.toNat then true
    else if a.toNat = b.toNat then lexLe as bs
    else false

/-- Row order produced by `ORDER BY aliases ASC`. -/
def aliasLe (x y : RepoEntry) : Bool := lexLe x.aliases.data y.aliases.data

/-- Insertion step of the sort the engine applies for `ORDER BY aliases ASC`. -/
def insertByAlias (e : RepoEntry) : List RepoEntry → List RepoEntry
  | [] => [e]
  | x :: xs => if aliasLe e x then e :: x :: xs else x :: insertByAlias e xs

/-- The rows of `repos_table` in `ORDER BY aliases ASC` order. -/
def sortByAlias (l : List RepoEntry) : List RepoEntry := l.foldr insertByAlias []

/-- Result rows of `SELECT aliases, paths FROM repos_table …`: two columns per
row, the `aliases` column first. -/
def rowsOf (l : List RepoEntry) : List (List (String × String)) :=
  l.map (fun e => [("aliases", e.aliases), ("paths", e.paths)])

/-- The handler-invocation trace produced by visiting the given entries: two
invocations per entry, alias column first, then path column. -/
def traceOf : List RepoEntry → List (String × String)
  | [] => []
  | e :: es => ("aliases", e.aliases) :: ("paths", e.paths) :: traceOf es

/-! ### The registry operations of `db.c` -/

/-- Embedding of `add_repo_to_db`: resolve the path with `realpath` (the
parameter `rp`), returning `SQLITE_ERROR` if resolution fails; then `sprintf`
the values into the insert statement and execute it. -/
def add_repo_to_db (rp : String → Option String) (db : ReposDB)
    (aname path : String) : Int × ReposDB :=
  (rp path).elim (SQLITE_ERROR, db) fun abspath =>
    (parseInsertStmt (insert_query aname abspath)).elim (SQLITE_ERROR, db)
      fun ap => execInsert db ap.1 ap.2

/-- Embedding of `foreach_repo`: run
`SELECT aliases, paths FROM repos_table ORDER BY aliases ASC` with
`foreach_repo_callback`, mapping a non-`SQLITE_OK` status to `-1` and success
to `0`. -/
def foreach_repo (cb : String → String → Int) (db : ReposDB) :
    Int × List (String × String) :=
  let pr := execWithCallback cb (rowsOf (sortByAlias db.entries))
  (if pr.1 ≠ SQLITE_OK then -1 else 0, pr.2)

/-- Embedding of `forsome_repos`: `sprintf` the alias into
`SELECT paths FROM repos_table WHERE aliases="%s"` and execute it with
`foreach_repo_callback`, returning the `sqlite3_exec` status unchanged. -/
def forsome_repos (cb : String → String → Int) (db : ReposDB) (aname : String) :
    Int × List (String × String) :=
  (parseWhereAliasStmt selectAliasPre (forsome_query aname)).elim
    (SQLITE_ERROR, []) fun rhs =>
      execWithCallback cb
        ((db.entries.filter (whereMatch rhs)).map
          (fun e => [("paths", e.paths)]))

/-- Embedding of `remove_repo_from_db`: `sprintf` the alias into
`DELETE FROM repos_table WHERE aliases="%s"` and execute it.  A delete that
matches zero rows is still `SQLITE_OK`. -/
def remove_repo_from_db (db : ReposDB) (aname : String) : Int × ReposDB :=
  (parseWhereAliasStmt deleteAliasPre (remove_query aname)).elim
    (SQLITE_ERROR, db) fun rhs =>
      (SQLITE_OK, ⟨db.entries.filter (fun e => !(whereMatch rhs e)), db.nextId⟩)

/-! ### Bound-parameter reference semantics (stated from the specification,
for comparison with the `sprintf`-based code) -/

/-- Insert as the specification demands it: the alias and the resolved path
reach the engine as bound values, never passing through the statement text. -/
def add_repo_bound (rp : String → Option String) (db : ReposDB)
    (aname path : String) : Int × ReposDB :=
  (rp path).elim (SQLITE_ERROR, db) fun abspath => execInsert db aname abspath

/-- Single-alias query as the specification demands it: the alias reaches the
engine as a bound value. -/
def forsome_bound (cb : String → String → Int) (db : ReposDB) (aname : String) :
    Int × List (String × String) :=
  execWithCallback cb
    ((db.entries.filter (fun e => e.aliases == aname)).map
      (fun e => [("paths", e.paths)]))

/-! ### Schema version reading -/

/-- Embedding of `schema_version_callback`: the row must have exactly one
column named `schema_version`; its text must be nonempty and `strtol` must
consume it entirely (`argv[0][0] != '\0'` and `*endptr == '\0'`).  Returns the
written `*version` and the callback's return code; every failure writes the
sentinel `-1` and returns `-1`. -/
def schema_version_callback (row : List (String × String)) : Int × Int :=
  match row with
  | [cv] =>
    if cv.1 ≠ "schema_version" then (-1, -1)
    else
      let pr := strtol10 cv.2.data
      if cv.2.data = [] ∨ pr.2 ≠ [] then (-1, -1)
      else (pr.1, 0)
  | _ => (-1, -1)

/-- `sqlite3_exec` driving `schema_version_callback` over the rows the
`PRAGMA schema_version` read delivers, threading the `version` variable; a
nonzero callback return aborts with `SQLITE_ABORT`. -/
def exec_schema_query : List (List (String × String)) → Int → Int × Int
  | [], v => (SQLITE_OK, v)
  | row :: rest, _ =>
    let pr := schema_version_callback row
    if pr.2 ≠ 0 then (SQLITE_ABORT, pr.1)
    else exec_schema_query rest pr.1

/-- Embedding of `get_schema_version`: `-1` if the `PRAGMA schema_version`
exec fails (`pragmaRows = none`, or the callback aborted), otherwise the
`version` variable — which starts out uninitialised (`vInit`) and is written
by the callback. -/
def get_schema_version (pragmaRows : Option (List (List (String × String))))
    (vInit : Int) : Int :=
  match pragmaRows with
  | none => -1
  | some rows =>
    let pr := exec_schema_query rows vInit
    if pr.1 ≠ SQLITE_OK then -1 else pr.2

/-! ### Store lifecycle -/

/-- Environment of one `get_db_handle` call: what the filesystem and the
SQLite engine will answer.  `pragmaRows` is what the `PRAGMA schema_version`
read delivers (`none`: the exec itself fails); `uninitInt` is the value an
uninitialised C `int` happens to hold; `dbFile` is the store content. -/
structure World where
  fileExists : Bool
  statErrno : Int
  openOk : Bool
  createOpenOk : Bool
  createTableOk : Bool
  stampWriteOk : Bool
  pragmaRows : Option (List (List (String × String)))
  uninitInt : Int
  dbFile : ReposDB
deriving DecidableEq

/-- Embedding of `create_new_db`: open (creating the file), create
`repos_table`, stamp `PRAGMA schema_version = 1`.  If table creation or the
stamp write fails, the handle is closed and the file `unlink`ed.  If the open
itself fails nothing has been created yet.  Returns the handle, the messages
printed, and the resulting world. -/
def create_new_db (w : World) : Option ReposDB × List String × World :=
  if !w.createOpenOk then (none, ["Failed to create a new database."], w)
  else if !w.createTableOk then (none, [], { w with fileExists := false })
  else if !w.stampWriteOk then (none, [], { w with fileExists := false })
  else (some emptyDB, [], { w with fileExists := true, dbFile := emptyDB })

/-- Embedding of `get_db_handle`: `expanded` is the `wordexp` result for
`DB_LOCATION` (`none`: expansion failed).  If the file is absent (`stat` fails
with `ENOENT`) delegate to `create_new_db`; on any other `stat` failure fail.
Otherwise open read-write and compare `get_schema_version` with
`SCHEMA_VERSION`; on mismatch print the two diagnostic lines (the second names
the store location), close the handle and fail. -/
def get_db_handle (expanded : Option String) (w : World) :
    Option ReposDB × List String × World :=
  match expanded with
  | none => (none, [], w)
  | some path =>
    if !w.fileExists then
      if w.statErrno = ENOENT then create_new_db w
      else (none, ["stat"], w)
    else if !w.openOk then (none, [], w)
    else if get_schema_version w.pragmaRows w.uninitInt ≠ SCHEMA_VERSION then
      (none, ["Corrupt database or old schema.", "DB: " ++ path], w)
    else (some w.dbFile, [], w)


/-! ### Helper lemmas: statement parsing -/

theorem dropLit_append : ∀ (p cs : List Char), dropLit p (p ++ cs) = some cs
  | [], _ => rfl
  | q :: qs, cs => by
    simp only [List.cons_append, dropLit, if_pos rfl]
    exact dropLit_append qs cs

theorem splitAtQuote_append :
    ∀ {a : List Char} {rest : List Char}, '\x22' ∉ a →
      splitAtQuote (a ++ '\x22' :: rest) = some (a, rest)
  | [], rest, _ => by simp [splitAtQuote]
  | c :: a, rest, h => by
    have hc : ¬(c = '\x22') := fun hq => h (hq ▸ List.mem_cons_self c a)
    have ha : '\x22' ∉ a := fun hm => h (List.mem_cons_of_mem c hm)
    have ih : splitAtQuote (a ++ '\x22' :: rest) = some (a, rest) :=
      splitAtQuote_append ha
    show (if c = '\x22' then some ([], a ++ '\x22' :: rest)
        else (splitAtQuote (a ++ '\x22' :: rest)).map (fun pr => (c :: pr.1, pr.2))) =
      some (c :: a, rest)
    rw [if_neg hc, ih]
    rfl

theorem parseInsertStmt_query (a p : String)
    (ha : '\x22' ∉ a.data) (hp : '\x22' ∉ p.data) :
    parseInsertStmt (insert_query a p) = some (a, p) := by
  have hdata : (insert_query a p).data =
      insertQueryPre.data ++
        (a.data ++ ('\x22' :: ([',', ' ', '\x22'] ++ (p.data ++ ('\x22' :: [')']))))) := by
    show (((insertQueryPre.data ++ a.data) ++ insertQueryMid.data) ++ p.data)
        ++ insertQuerySuf.data = _
    rw [show insertQueryMid.data = '\x22' :: [',', ' ', '\x22'] from rfl,
      show insertQuerySuf.data = '\x22' :: [')'] from rfl]
    simp [List.append_assoc]
  simp only [parseInsertStmt, hdata, dropLit_append, Option.some_bind,
    splitAtQuote_append ha, splitAtQuote_append hp]
  rfl

theorem parseWhereAliasStmt_query (pre a : String) (ha : '\x22' ∉ a.data) :
    parseWhereAliasStmt pre (pre ++ a ++ quoteStr) = some (resolveToken a) := by
  have hdata : (pre ++ a ++ quoteStr).data =
      pre.data ++ (a.data ++ ('\x22' :: [])) := by
    show (pre.data ++ a.data) ++ quoteStr.data = _
    rw [show quoteStr.data = ['\x22'] from rfl]
    simp [List.append_assoc]
  simp only [parseWhereAliasStmt, hdata, dropLit_append, Option.some_bind,
    splitAtQuote_append ha]
  rfl


/-! ### Helper lemmas: ordering -/

theorem lexLe_total : ∀ (a b : List Char), lexLe a b = true ∨ lexLe b a = true
  | [], _ => Or.inl rfl
  | _ :: _, [] => Or.inr rfl
  | a :: as, b :: bs => by
    rcases Nat.lt_trichotomy a.toNat b.toNat with h | h | h
    · left; simp [lexLe, h]
    · rcases lexLe_total as bs with h2 | h2
      · left; simp [lexLe, h, h2]
      · right; simp [lexLe, h, h2]
    · right; simp [lexLe, h]

theorem lexLe_trans :
    ∀ {a b c : List Char}, lexLe a b = true → lexLe b c = true → lexLe a c = true
  | [], _, _, _, _ => rfl
  | _ :: _, [], _, h1, _ => by simp [lexLe] at h1
  | _ :: _, _ :: _, [], _, h2 => by simp [lexLe] at h2
  | x :: xs, y :: ys, z :: zs, h1, h2 => by
    simp only [lexLe] at h1 h2 ⊢
    rcases Nat.lt_trichotomy x.toNat y.toNat with hxy | hxy | hxy
    · rcases Nat.lt_trichotomy y.toNat z.toNat with hyz | hyz | hyz
      · rw [if_pos (show x.toNat < z.toNat by omega)]
      · rw [if_pos (show x.toNat < z.toNat by omega)]
      · rw [if_neg (show ¬(y.toNat < z.toNat) by omega),
          if_neg (show ¬(y.toNat = z.toNat) by omega)] at h2
        cases h2
    · rcases Nat.lt_trichotomy y.toNat z.toNat with hyz | hyz | hyz
      · rw [if_pos (show x.toNat < z.toNat by omega)]
      · have h1' : lexLe xs ys = true := by
          rw [if_neg (show ¬(x.toNat < y.toNat) by omega), if_pos hxy] at h1
          exact h1
        have h2' : lexLe ys zs = true := by
          rw [if_neg (show ¬(y.toNat < z.toNat) by omega), if_pos hyz] at h2
          exact h2
        rw [if_neg (show ¬(x.toNat < z.toNat) by omega),
          if_pos (show x.toNat = z.toNat by omega)]
        exact lexLe_trans h1' h2'
      · rw [if_neg (show ¬(y.toNat < z.toNat) by omega),
          if_neg (show ¬(y.toNat = z.toNat) by omega)] at h2
        cases h2
    · rw [if_neg (show ¬(x.toNat < y.toNat) by omega),
        if_neg (show ¬(x.toNat = y.toNat) by omega)] at h1
      cases h1

theorem aliasLe_total (x y : RepoEntry) : aliasLe x y = true ∨ aliasLe y x = true :=
  lexLe_total _ _

theorem aliasLe_trans {x y z : RepoEntry} (h1 : aliasLe x y = true)
    (h2 : aliasLe y z = true) : aliasLe x z = true :=
  lexLe_trans h1 h2

theorem insertByAlias_perm (e : RepoEntry) :
    ∀ l, (insertByAlias e l).Perm (e :: l)
  | [] => List.Perm.refl _
  | x :: xs => by
    by_cases h : aliasLe e x = true
    · simp only [insertByAlias, if_pos h]
      exact List.Perm.refl _
    · simp only [insertByAlias, if_neg h]
      exact ((insertByAlias_perm e xs).cons x).trans (List.Perm.swap e x xs)

theorem mem_insertByAlias {y e : RepoEntry} {l : List RepoEntry}
    (h : y ∈ insertByAlias e l) : y = e ∨ y ∈ l := by
  have h2 := (insertByAlias_perm e l).mem_iff.mp h
  simpa using h2

theorem insertByAlias_pairwise (e : RepoEntry) :
    ∀ l, List.Pairwise (fun x y => aliasLe x y = true) l →
      List.Pairwise (fun x y => aliasLe x y = true) (insertByAlias e l)
  | [], _ => by simp [insertByAlias]
  | x :: xs, h => by
    rw [List.pairwise_cons] at h
    obtain ⟨hx, hxs⟩ := h
    by_cases hex : aliasLe e x = true
    · simp only [insertByAlias, if_pos hex]
      refine List.Pairwise.cons ?_ (List.Pairwise.cons hx hxs)
      intro y hy
      rcases List.mem_cons.mp hy with rfl | hy
      · exact hex
      · exact aliasLe_trans hex (hx y hy)
    · simp only [insertByAlias, if_neg hex]
      refine List.Pairwise.cons ?_ (insertByAlias_pairwise e xs hxs)
      intro y hy
      rcases mem_insertByAlias hy with rfl | hy
      · rcases aliasLe_total x y with h2 | h2
        · exact h2
        · exact absurd h2 hex
      · exact hx y hy

theorem sortByAlias_perm : ∀ l, (sortByAlias l).Perm l
  | [] => List.Perm.refl _
  | e :: l => by
    show (insertByAlias e (sortByAlias l)).Perm (e :: l)
    exact (insertByAlias_perm e _).trans ((sortByAlias_perm l).cons e)

theorem sortByAlias_pairwise :
    ∀ l, List.Pairwise (fun x y => aliasLe x y = true) (sortByAlias l)
  | [] => List.Pairwise.nil
  | e :: l => by
    show List.Pairwise _ (insertByAlias e (sortByAlias l))
    exact insertByAlias_pairwise e _ (sortByAlias_pairwise l)

/-! ### Helper lemmas: bitwise accumulation -/

theorem natLor_eq_zero {m n : Nat} (h : m ||| n = 0) : m = 0 ∧ n = 0 := by
  have hb : ∀ i, (m.testBit i || n.testBit i) = false := by
    intro i
    have h2 := congrArg (fun x => Nat.testBit x i) h
    simpa [Nat.testBit_or, Nat.zero_testBit] using h2
  constructor
  · refine Nat.eq_of_testBit_eq fun i => ?_
    rw [Nat.zero_testBit]
    exact (Bool.or_eq_false_iff.mp (hb i)).1
  · refine Nat.eq_of_testBit_eq fun i => ?_
    rw [Nat.zero_testBit]
    exact (Bool.or_eq_false_iff.mp (hb i)).2

theorem intLor_eq_zero_iff (a b : Int) : Int.lor a b = 0 ↔ a = 0 ∧ b = 0 := by
  constructor
  · intro h
    cases a with
    | ofNat m =>
      cases b with
      | ofNat n =>
        rw [show Int.lor (Int.ofNat m) (Int.ofNat n) = Int.ofNat (m ||| n) from rfl] at h
        rw [show (0 : Int) = Int.ofNat 0 from rfl] at h
        have h2 : m ||| n = 0 := Int.ofNat.inj h
        obtain ⟨h3, h4⟩ := natLor_eq_zero h2
        exact ⟨by simp [h3], by simp [h4]⟩
      | negSucc n =>
        rw [show Int.lor (Int.ofNat m) (Int.negSucc n) =
          Int.negSucc (Nat.ldiff n m) from rfl] at h
        exact absurd h (Int.negSucc_ne_zero _)
    | negSucc m =>
      cases b with
      | ofNat n =>
        rw [show Int.lor (Int.negSucc m) (Int.ofNat n) =
          Int.negSucc (Nat.ldiff m n) from rfl] at h
        exact absurd h (Int.negSucc_ne_zero _)
      | negSucc n =>
        rw [show Int.lor (Int.negSucc m) (Int.negSucc n) =
          Int.negSucc (m &&& n) from rfl] at h
        exact absurd h (Int.negSucc_ne_zero _)
  · rintro ⟨rfl, rfl⟩
    rfl

theorem foldl_lor_eq_zero_iff (cb : String → String → Int) :
    ∀ (l : List (String × String)) (a : Int),
      l.foldl (fun st cv => Int.lor st (cb cv.1 cv.2)) a = 0 ↔
        a = 0 ∧ ∀ cv ∈ l, cb cv.1 cv.2 = 0
  | [], a => by simp
  | cv :: l, a => by
    rw [List.foldl_cons, foldl_lor_eq_zero_iff cb l (Int.lor a (cb cv.1 cv.2)),
      intLor_eq_zero_iff]
    simp only [List.forall_mem_cons, and_assoc]

theorem foreach_repo_callback_zero_iff (cb : String → String → Int)
    (row : List (String × String)) :
    (foreach_repo_callback cb row).1 = 0 ↔ ∀ cv ∈ row, cb cv.1 cv.2 = 0 := by
  unfold foreach_repo_callback
  rw [foldl_lor_eq_zero_iff cb row 0]
  simp

/-! ### Helper lemmas: callback-driven execution -/

theorem flatten_rowsOf : ∀ l : List RepoEntry, (rowsOf l).flatten = traceOf l
  | [] => rfl
  | e :: es => by
    show ([("aliases", e.aliases), ("paths", e.paths)] :: rowsOf es).flatten = _
    rw [List.flatten_cons, flatten_rowsOf es]
    rfl

theorem execWithCallback_all_ok (cb : String → String → Int)
    (hcb : ∀ c v, cb c v = 0) :
    ∀ rows, execWithCallback cb rows = (SQLITE_OK, rows.flatten)
  | [] => rfl
  | row :: rest => by
    have h0 : (foreach_repo_callback cb row).1 = 0 :=
      (foreach_repo_callback_zero_iff cb row).mpr (fun cv _ => hcb cv.1 cv.2)
    simp only [execWithCallback]
    rw [if_neg (by simp [h0])]
    rw [execWithCallback_all_ok cb hcb rest]
    simp [foreach_repo_callback, List.flatten_cons]

theorem execWithCallback_fail (cb : String → String → Int) :
    ∀ rows row, row ∈ rows → (foreach_repo_callback cb row).1 ≠ 0 →
      (execWithCallback cb rows).1 ≠ SQLITE_OK
  | [], row, hmem, _ => absurd hmem (List.not_mem_nil row)
  | r :: rest, row, hmem, hbad => by
    simp only [execWithCallback]
    by_cases h : (foreach_repo_callback cb r).1 ≠ 0
    · rw [if_pos h]
      simp [SQLITE_ABORT, SQLITE_OK]
    · rw [if_neg h]
      rcases List.mem_cons.mp hmem with rfl | hmem2
      · exact absurd hbad h
      · simpa using execWithCallback_fail cb rest row hmem2 hbad

theorem execWithCallback_single (cb : String → String → Int)
    (row : List (String × String)) : (execWithCallback cb [row]).2 = row := by
  simp only [execWithCallback]
  by_cases h : (foreach_repo_callback cb row).1 ≠ 0
  · rw [if_pos h]
    rfl
  · rw [if_neg h]
    simp [execWithCallback, foreach_repo_callback]


/-! ### Helper lemmas: strtol -/

theorem takeDigits_append : ∀ cs : List Char, (takeDigits cs).1 ++ (takeDigits cs).2 = cs
  | [] => rfl
  | c :: cs => by
    by_cases h : c.isDigit
    · simp only [takeDigits, if_pos h, List.cons_append]
      rw [takeDigits_append cs]
    · simp [takeDigits, if_neg h]

theorem takeDigits_digits : ∀ cs : List Char, ∀ c ∈ (takeDigits cs).1, c.isDigit = true
  | [] => by simp [takeDigits]
  | c :: cs => by
    by_cases h : c.isDigit
    · simp only [takeDigits, if_pos h]
      intro x hx
      rcases List.mem_cons.mp hx with rfl | hx2
      · exact h
      · exact takeDigits_digits cs x hx2
    · simp [takeDigits, if_neg h]

theorem stripSign_decomp : ∀ cs : List Char, ∃ sp, cs = sp ++ (stripSign cs).2
  | [] => ⟨[], rfl⟩
  | c :: r => by
    by_cases h1 : c = '+'
    · subst h1
      exact ⟨['+'], by simp [stripSign]⟩
    · by_cases h2 : c = '-'
      · subst h2
        exact ⟨['-'], by simp [stripSign]⟩
      · exact ⟨[], by simp [stripSign, h1, h2]⟩

theorem getLast?_mem_of_eq : ∀ {l : List Char} {c : Char}, l.getLast? = some c → c ∈ l
  | [], _, h => by simp at h
  | [a], c, h => by
    simp [List.getLast?] at h
    simp [h]
  | a :: b :: l, c, h => by
    rw [List.getLast?_cons_cons] at h
    exact List.mem_cons_of_mem a (getLast?_mem_of_eq h)

theorem strtol10_push_nondigit (t : String) (c : Char) (hc : c.isDigit = false) :
    (strtol10 (t.push c).data).2 ≠ [] := by
  have hdata : (t.push c).data = t.data ++ [c] := rfl
  rw [hdata]
  simp only [strtol10]
  by_cases hds : (takeDigits (stripSign ((t.data ++ [c]).dropWhile isSpaceChar)).2).1 = []
  · rw [if_pos hds]
    simp
  · rw [if_neg hds]
    intro hrest
    have hdw := List.takeWhile_append_dropWhile isSpaceChar (t.data ++ [c])
    obtain ⟨sp, hsp⟩ := stripSign_decomp ((t.data ++ [c]).dropWhile isSpaceChar)
    have htd := takeDigits_append (stripSign ((t.data ++ [c]).dropWhile isSpaceChar)).2
    rw [hrest, List.append_nil] at htd
    have hcs : t.data ++ [c] =
        ((t.data ++ [c]).takeWhile isSpaceChar ++ (sp ++
          (takeDigits (stripSign ((t.data ++ [c]).dropWhile isSpaceChar)).2).1)) := by
      rw [htd, ← hsp, hdw]
    have h1 : (t.data ++ [c]).getLast? = some c := List.getLast?_concat _
    have h2 := congrArg List.getLast? hcs
    rw [h1, List.getLast?_append, List.getLast?_append,
      List.getLast?_eq_getLast _ hds, Option.or_some, Option.or_some] at h2
    have h3 : c = (takeDigits (stripSign ((t.data ++ [c]).dropWhile isSpaceChar)).2).1.getLast hds :=
      Option.some.inj h2
    have hmem : c ∈ (takeDigits (stripSign ((t.data ++ [c]).dropWhile isSpaceChar)).2).1 := by
      have hgm := List.getLast_mem hds
      rw [← h3] at hgm
      exact hgm
    have hdig := takeDigits_digits _ c hmem
    rw [hdig] at hc
    cases hc


/-! ### Claim theorems -/

/-- Claim C1, corrected.  The claim says the alias and path reach the SQL
engine as bound parameters, so that quote-bearing values succeed and
round-trip; in fact `add_repo_to_db` and `forsome_repos` interpolate the
values into the statement text with `sprintf`.  What does hold: on alias and
path values free of double-quote (and NUL) characters whose token moreover
does not resolve to a column of `repos_table` (for such tokens the
single-alias query compares columns instead of matching the literal), the
interpolating code is observably equivalent to bound-parameter execution. -/
theorem C1_quote_free_params_equiv (rp : String → Option String) (db : ReposDB)
    (aname path canon : String) (cb : String → String → Int)
    (hrp : rp path = some canon) (ha : CleanStr aname) (hc : CleanStr canon)
    (hcol : resolveToken aname = WhereRhs.lit aname) :
    add_repo_to_db rp db aname path = add_repo_bound rp db aname path ∧
    forsome_repos cb db aname = forsome_bound cb db aname := by
  constructor
  · unfold add_repo_to_db add_repo_bound
    rw [hrp, Option.elim_some, Option.elim_some,
      parseInsertStmt_query aname canon ha.1 hc.1, Option.elim_some]
  · unfold forsome_repos forsome_bound
    rw [show forsome_query aname = selectAliasPre ++ aname ++ quoteStr from rfl,
      parseWhereAliasStmt_query selectAliasPre aname ha.1, Option.elim_some, hcol]
    rfl

/-- Claim C1, counterexample to the claim as stated: with the alias
`o"brien` the insert does not succeed (the interpolated statement fails to
parse, `SQLITE_ERROR`), nothing is stored, the round-trip through
`forsome_repos` delivers zero invocations, and the result differs from what
bound-parameter execution (`add_repo_bound`) would produce.  Moreover even
the quote-free alias `aliases` separates the interpolating query from bound
execution: the token resolves to the `aliases` column, `WHERE
aliases="aliases"` holds of every row, and the query returns every path while
the bound query returns none. -/
theorem C1_counterexample :
    add_repo_to_db (fun _ => some "/repo") emptyDB "o\x22brien" "/repo" =
      (SQLITE_ERROR, emptyDB) ∧
    (forsome_repos (fun _ _ => 0)
      (add_repo_to_db (fun _ => some "/repo") emptyDB "o\x22brien" "/repo").2
      "o\x22brien").2 = [] ∧
    add_repo_bound (fun _ => some "/repo") emptyDB "o\x22brien" "/repo" =
      (SQLITE_OK, ⟨[⟨1, "o\x22brien", "/repo"⟩], 2⟩) ∧
    SQLITE_ERROR ≠ SQLITE_OK ∧
    (forsome_repos (fun _ _ => 0) ⟨[⟨1, "a", "/p"⟩], 2⟩ "aliases").2 =
      [("paths", "/p")] ∧
    (forsome_bound (fun _ _ => 0) ⟨[⟨1, "a", "/p"⟩], 2⟩ "aliases").2 = [] := by
  decide

/-- Witness for `C1_quote_free_params_equiv` at a concrete quote-free input. -/
theorem C1_quote_free_params_equiv_witness :
    (fun _ : String => some "/repo") "/repo" = some "/repo" ∧
    CleanStr "myrepo" ∧ CleanStr "/repo" ∧
    add_repo_to_db (fun _ => some "/repo") emptyDB "myrepo" "/repo" =
      add_repo_bound (fun _ => some "/repo") emptyDB "myrepo" "/repo" ∧
    forsome_repos (fun _ _ => 0) emptyDB "myrepo" =
      forsome_bound (fun _ _ => 0) emptyDB "myrepo" := by
  have h := C1_quote_free_params_equiv (fun _ => some "/repo") emptyDB
    "myrepo" "/repo" "/repo" (fun _ _ => 0) rfl (by decide) (by decide)
    (by decide)
  exact ⟨rfl, by decide, by decide, h.1, h.2⟩

/-- Claim C2, corrected.  For a resolvable path and no prior conflicting
entry, `add_repo_to_db` followed by `forsome_repos` on that alias invokes the
handler exactly once with the canonical (resolved) path, and an unresolvable
path fails without storing anything — provided the alias and the canonical
path are free of double-quote (and NUL) characters and the alias token does
not resolve to a column of `repos_table`; a quote-bearing alias makes the
insert fail, and a column-name alias makes the query compare columns instead
of matching the alias (see the counterexample for both). -/
theorem C2_insert_forAlias_roundtrip (rp : String → Option String)
    (db : ReposDB) (aname path canon : String) (cb : String → String → Int)
    (hrp : rp path = some canon) (ha : CleanStr aname) (hc : CleanStr canon)
    (hcol : resolveToken aname = WhereRhs.lit aname)
    (hnew : ∀ e ∈ db.entries, e.aliases ≠ aname ∧ e.paths ≠ canon) :
    add_repo_to_db rp db aname path =
      (SQLITE_OK, ⟨db.entries ++ [⟨db.nextId, aname, canon⟩], db.nextId + 1⟩) ∧
    (forsome_repos cb (add_repo_to_db rp db aname path).2 aname).2 =
      [("paths", canon)] ∧
    (∀ badPath, rp badPath = none →
      add_repo_to_db rp db aname badPath = (SQLITE_ERROR, db)) := by
  have hany : db.entries.any (fun e => e.aliases == aname || e.paths == canon)
      = false := by
    rw [List.any_eq_false]
    intro e he
    obtain ⟨h1, h2⟩ := hnew e he
    simp [h1, h2]
  have hadd : add_repo_to_db rp db aname path =
      (SQLITE_OK, ⟨db.entries ++ [⟨db.nextId, aname, canon⟩], db.nextId + 1⟩) := by
    unfold add_repo_to_db
    rw [hrp, Option.elim_some, parseInsertStmt_query aname canon ha.1 hc.1,
      Option.elim_some]
    unfold execInsert
    simp [hany]
  refine ⟨hadd, ?_, ?_⟩
  · rw [hadd]
    have hfilter : (db.entries ++ [(⟨db.nextId, aname, canon⟩ : RepoEntry)]).filter
        (fun e => e.aliases == aname) = [(⟨db.nextId, aname, canon⟩ : RepoEntry)] := by
      rw [List.filter_append]
      have h1 : db.entries.filter (fun e => e.aliases == aname) = [] :=
        List.filter_eq_nil_iff.mpr (fun e he => by simp [(hnew e he).1])
      rw [h1]
      simp [List.filter]
    show (forsome_repos cb ⟨db.entries ++ [⟨db.nextId, aname, canon⟩],
      db.nextId + 1⟩ aname).2 = _
    unfold forsome_repos
    rw [show forsome_query aname = selectAliasPre ++ aname ++ quoteStr from rfl,
      parseWhereAliasStmt_query selectAliasPre aname ha.1, Option.elim_some,
      hcol]
    show (execWithCallback cb (((db.entries ++
      [(⟨db.nextId, aname, canon⟩ : RepoEntry)]).filter
        (fun e => e.aliases == aname)).map
        (fun e => [("paths", e.paths)]))).2 = _
    rw [hfilter]
    exact execWithCallback_single cb _
  · intro badPath hbad
    unfold add_repo_to_db
    rw [hbad, Option.elim_none]

/-- Claim C2, counterexample to the claim as stated: the alias `a"b` with a
resolvable path and an empty store makes the insert fail (nothing stored),
and the subsequent single-alias query delivers zero handler invocations
instead of exactly one.  The quote-free alias `paths` also refutes the
claim: its insert succeeds, but the token resolves to the `paths` column, so
the query runs `WHERE aliases=paths` and invokes the handler zero times. -/
theorem C2_counterexample :
    (fun _ : String => some "/r") "/r" = some "/r" ∧
    add_repo_to_db (fun _ => some "/r") emptyDB "a\x22b" "/r" =
      (SQLITE_ERROR, emptyDB) ∧
    (forsome_repos (fun _ _ => 0)
      (add_repo_to_db (fun _ => some "/r") emptyDB "a\x22b" "/r").2
      "a\x22b").2 = [] ∧
    add_repo_to_db (fun _ => some "/repo") emptyDB "paths" "/repo" =
      (SQLITE_OK, ⟨[⟨1, "paths", "/repo"⟩], 2⟩) ∧
    (forsome_repos (fun _ _ => 0)
      (add_repo_to_db (fun _ => some "/repo") emptyDB "paths" "/repo").2
      "paths").2 = [] := by decide

/-- Witness for `C2_insert_forAlias_roundtrip` at a concrete input. -/
theorem C2_insert_forAlias_roundtrip_witness :
    add_repo_to_db (fun p => if p = "/tmp/repo" then some "/repo" else none)
      emptyDB "myrepo" "/tmp/repo" = (SQLITE_OK, ⟨[⟨1, "myrepo", "/repo"⟩], 2⟩) ∧
    (forsome_repos (fun _ _ => 0)
      (add_repo_to_db (fun p => if p = "/tmp/repo" then some "/repo" else none)
        emptyDB "myrepo" "/tmp/repo").2 "myrepo").2 = [("paths", "/repo")] ∧
    add_repo_to_db (fun p => if p = "/tmp/repo" then some "/repo" else none)
      emptyDB "myrepo" "/missing" = (SQLITE_ERROR, emptyDB) := by
  have h := C2_insert_forAlias_roundtrip
    (fun p => if p = "/tmp/repo" then some "/repo" else none)
    emptyDB "myrepo" "/tmp/repo" "/repo" (fun _ _ => 0)
    (by decide) (by decide) (by decide) (by decide) (by decide)
  exact ⟨h.1, h.2.1, h.2.2 "/missing" (by decide)⟩

/-- Claim C3, corrected.  When the inserted alias and canonical path are free
of double-quote (and NUL) characters — as every successfully stored value
necessarily is — inserting a duplicate alias or duplicate canonical path
fails with `SQLITE_CONSTRAINT` and leaves the stored entries unchanged.  The
claim as stated also covers a quote-bearing insert whose canonical path
duplicates a stored one; there the `sprintf`-built statement never parses, so
the failure is `SQLITE_ERROR`, not a constraint violation (see the
counterexample). -/
theorem C3_duplicate_insert_constraint (rp : String → Option String)
    (db : ReposDB) (aname path canon : String)
    (hrp : rp path = some canon) (ha : CleanStr aname) (hc : CleanStr canon)
    (hdup : ∃ e ∈ db.entries, e.aliases = aname ∨ e.paths = canon) :
    add_repo_to_db rp db aname path = (SQLITE_CONSTRAINT, db) := by
  unfold add_repo_to_db
  rw [hrp, Option.elim_some, parseInsertStmt_query aname canon ha.1 hc.1,
    Option.elim_some]
  unfold execInsert
  have hany : db.entries.any (fun e => e.aliases == aname || e.paths == canon)
      = true := by
    rw [List.any_eq_true]
    obtain ⟨e, he, hor⟩ := hdup
    exact ⟨e, he, by rcases hor with h | h <;> simp [h]⟩
  simp [hany]

/-- Witness for `C3_duplicate_insert_constraint`: a duplicate alias. -/
theorem C3_duplicate_insert_constraint_witness :
    CleanStr "a" ∧ CleanStr "/q" ∧
    (∃ e ∈ (⟨[⟨1, "a", "/p"⟩], 2⟩ : ReposDB).entries,
      e.aliases = "a" ∨ e.paths = "/q") ∧
    add_repo_to_db (fun _ => some "/q") ⟨[⟨1, "a", "/p"⟩], 2⟩ "a" "/anywhere" =
      (SQLITE_CONSTRAINT, ⟨[⟨1, "a", "/p"⟩], 2⟩) := by
  refine ⟨by decide, by decide, by decide, ?_⟩
  exact C3_duplicate_insert_constraint (fun _ => some "/q") ⟨[⟨1, "a", "/p"⟩], 2⟩
    "a" "/anywhere" "/q" rfl (by decide) (by decide) (by decide)

/-- Claim C3, counterexample to the claim as stated: inserting the alias
`a"b` whose path resolves to the already-stored canonical path `/p`
satisfies the claim's premise, yet the insert fails with the syntax-error
status `SQLITE_ERROR` (1) rather than `SQLITE_CONSTRAINT` (19) — the
interpolated statement never reaches the constraint check (the store is
still unchanged). -/
theorem C3_counterexample :
    add_repo_to_db (fun _ => some "/p") ⟨[⟨1, "a", "/p"⟩], 2⟩ "a\x22b" "/x" =
      (SQLITE_ERROR, ⟨[⟨1, "a", "/p"⟩], 2⟩) ∧
    SQLITE_ERROR ≠ SQLITE_CONSTRAINT := by decide

/-- Claim C4, confirmed.  For every store state, `foreach_repo` with a
succeeding handler visits the entries in ascending lexicographic order of
alias (the visited list is an alias-sorted permutation of the stored
entries), invoking the handler exactly twice per entry — alias column first,
then path column — and returns success; on an empty table it returns success
with zero invocations. -/
theorem C4_foreach_sorted_trace (db : ReposDB) (cb : String → String → Int)
    (hcb : ∀ c v, cb c v = 0) :
    foreach_repo cb db = (0, traceOf (sortByAlias db.entries)) ∧
    (sortByAlias db.entries).Perm db.entries ∧
    List.Pairwise (fun x y => aliasLe x y = true) (sortByAlias db.entries) ∧
    (db.entries = [] → foreach_repo cb db = (0, [])) := by
  have h1 := execWithCallback_all_ok cb hcb (rowsOf (sortByAlias db.entries))
  rw [flatten_rowsOf] at h1
  have hmain : foreach_repo cb db = (0, traceOf (sortByAlias db.entries)) := by
    simp only [foreach_repo]
    rw [h1]
    simp
  refine ⟨hmain, sortByAlias_perm _, sortByAlias_pairwise _, fun hempty => ?_⟩
  rw [hmain, hempty]
  rfl

/-- Witness for `C4_foreach_sorted_trace`: aliases `b`, `a`, `c` are visited
in the order `a`, `b`, `c`, two invocations per entry. -/
theorem C4_foreach_sorted_trace_witness :
    foreach_repo (fun _ _ => 0) ⟨[⟨1, "b", "/b"⟩, ⟨2, "a", "/a"⟩, ⟨3, "c", "/c"⟩], 4⟩ =
      (0, [("aliases", "a"), ("paths", "/a"), ("aliases", "b"), ("paths", "/b"),
        ("aliases", "c"), ("paths", "/c")]) ∧
    (sortByAlias (⟨[⟨1, "b", "/b"⟩, ⟨2, "a", "/a"⟩, ⟨3, "c", "/c"⟩], 4⟩ :
      ReposDB).entries).Perm
      (⟨[⟨1, "b", "/b"⟩, ⟨2, "a", "/a"⟩, ⟨3, "c", "/c"⟩], 4⟩ : ReposDB).entries := by
  have h := C4_foreach_sorted_trace
    ⟨[⟨1, "b", "/b"⟩, ⟨2, "a", "/a"⟩, ⟨3, "c", "/c"⟩], 4⟩
    (fun _ _ => 0) (fun _ _ => rfl)
  exact ⟨h.1.trans (by decide), h.2.1⟩

/-- Claim C5, confirmed.  `schema_version_callback` fails (writes and returns
the sentinel) unless the read delivered exactly one column named
`schema_version`; the numeric parse is a strict full-string parse that
rejects the empty string and any input whose text is not consumed entirely —
in particular any input ending in a non-digit character. -/
theorem C5_strict_version_parse :
    (∀ row, row.length ≠ 1 → schema_version_callback row = (-1, -1)) ∧
    (∀ c v, c ≠ "schema_version" → schema_version_callback [(c, v)] = (-1, -1)) ∧
    schema_version_callback [("schema_version", "")] = (-1, -1) ∧
    (∀ (t : String) (c : Char), c.isDigit = false →
      schema_version_callback [("schema_version", t.push c)] = (-1, -1)) := by
  refine ⟨?_, ?_, by decide, ?_⟩
  · intro row hlen
    match row with
    | [] => rfl
    | [cv] => exact absurd rfl hlen
    | a :: b :: r => rfl
  · intro c v hc
    simp [schema_version_callback, hc]
  · intro t c hc
    have h2 := strtol10_push_nondigit t c hc
    simp [schema_version_callback]
    exact h2

/-- Witness for `C5_strict_version_parse`: trailing junk, a wrong column
name, and a zero-column read all fail. -/
theorem C5_strict_version_parse_witness :
    schema_version_callback [("schema_version", String.push "12" 'x')] = (-1, -1) ∧
    schema_version_callback [("version", "1")] = (-1, -1) ∧
    schema_version_callback [] = (-1, -1) :=
  ⟨C5_strict_version_parse.2.2.2 "12" 'x' (by decide),
    C5_strict_version_parse.2.1 "version" "1" (by decide),
    C5_strict_version_parse.1 [] (by decide)⟩

/-- Claim C6, confirmed.  When `get_db_handle` opens an existing store whose
readable-or-not stamped version is not `SCHEMA_VERSION`, it returns no
handle, prints a diagnostic whose second line names the store location, and
leaves the world — in particular the store file — unchanged. -/
theorem C6_schema_mismatch_rejected (w : World) (path : String)
    (hfe : w.fileExists = true) (hopen : w.openOk = true)
    (hver : get_schema_version w.pragmaRows w.uninitInt ≠ SCHEMA_VERSION) :
    get_db_handle (some path) w =
      (none, ["Corrupt database or old schema.", "DB: " ++ path], w) ∧
    ("DB: " ++ path) ∈ (get_db_handle (some path) w).2.1 := by
  have h : get_db_handle (some path) w =
      (none, ["Corrupt database or old schema.", "DB: " ++ path], w) := by
    simp [get_db_handle, hfe, hopen, hver]
  exact ⟨h, by rw [h]; simp⟩

/-- Witness for `C6_schema_mismatch_rejected`: a store stamped with version 2. -/
theorem C6_schema_mismatch_rejected_witness :
    get_schema_version (some [[("schema_version", "2")]]) 0 ≠ SCHEMA_VERSION ∧
    get_db_handle (some "/home/user/.watchgit.db")
      ⟨true, 2, true, true, true, true, some [[("schema_version", "2")]], 0, emptyDB⟩ =
      (none, ["Corrupt database or old schema.", "DB: /home/user/.watchgit.db"],
        ⟨true, 2, true, true, true, true, some [[("schema_version", "2")]], 0, emptyDB⟩) := by
  refine ⟨by decide, ?_⟩
  have h := C6_schema_mismatch_rejected
    ⟨true, 2, true, true, true, true, some [[("schema_version", "2")]], 0, emptyDB⟩
    "/home/user/.watchgit.db" rfl rfl (by decide)
  exact h.1

/-- Claim C7, confirmed.  If first-time store creation fails at any of its
three steps — the open, the `CREATE TABLE`, or the version-stamp write — no
store file is left behind (the partial file is unlinked on the two later
failures, and the failed open never created one), and no handle is returned,
so a later attempt starts from the absent-file state. -/
theorem C7_create_failure_cleanup (w : World)
    (habsent : w.fileExists = false)
    (hfail : w.createOpenOk = false ∨ w.createTableOk = false ∨
      w.stampWriteOk = false) :
    (create_new_db w).1 = none ∧ ((create_new_db w).2.2).fileExists = false := by
  rcases hfail with h | h | h
  · unfold create_new_db
    rw [h]
    exact ⟨rfl, habsent⟩
  · cases h1 : w.createOpenOk with
    | false =>
      unfold create_new_db
      rw [h1]
      exact ⟨rfl, habsent⟩
    | true =>
      unfold create_new_db
      rw [h1, h]
      exact ⟨rfl, rfl⟩
  · cases h1 : w.createOpenOk with
    | false =>
      unfold create_new_db
      rw [h1]
      exact ⟨rfl, habsent⟩
    | true =>
      cases h2 : w.createTableOk with
      | false =>
        unfold create_new_db
        rw [h1, h2]
        exact ⟨rfl, rfl⟩
      | true =>
        unfold create_new_db
        rw [h1, h2, h]
        exact ⟨rfl, rfl⟩

/-- Witness for `C7_create_failure_cleanup`: `CREATE TABLE` fails. -/
theorem C7_create_failure_cleanup_witness :
    (create_new_db ⟨false, 2, true, true, false, true, none, 0, emptyDB⟩).1 = none ∧
    ((create_new_db ⟨false, 2, true, true, false, true, none, 0, emptyDB⟩).2.2).fileExists
      = false :=
  C7_create_failure_cleanup ⟨false, 2, true, true, false, true, none, 0, emptyDB⟩
    rfl (Or.inr (Or.inl rfl))

/-- Claim C9, confirmed.  Within one result row `foreach_repo_callback`
invokes the caller-supplied handler once per column, left to right,
unconditionally (the trace is the whole row no matter what the handler
returns); the row's status is the bitwise OR of the handler results, so it is
zero exactly when every handler invocation returned zero; and a row with a
nonzero status makes the whole `foreach_repo` iteration fail with `-1`. -/
theorem C9_callback_or_accumulation :
    (∀ cb row, (foreach_repo_callback cb row).2 = row) ∧
    (∀ cb row, (foreach_repo_callback cb row).1 =
      row.foldl (fun st cv => Int.lor st (cb cv.1 cv.2)) 0) ∧
    (∀ cb row, (foreach_repo_callback cb row).1 = 0 ↔
      ∀ cv ∈ row, cb cv.1 cv.2 = 0) ∧
    (∀ cb db row, row ∈ rowsOf (sortByAlias db.entries) →
      (foreach_repo_callback cb row).1 ≠ 0 → (foreach_repo cb db).1 = -1) := by
  refine ⟨fun _ _ => rfl, fun _ _ => rfl, foreach_repo_callback_zero_iff, ?_⟩
  intro cb db row hmem hbad
  have h := execWithCallback_fail cb (rowsOf (sortByAlias db.entries)) row hmem hbad
  simp [foreach_repo, h]

/-- Witness for `C9_callback_or_accumulation`: an always-failing handler is
still invoked on both columns of the row, and the iteration fails. -/
theorem C9_callback_or_accumulation_witness :
    (foreach_repo_callback (fun _ _ => 1) [("aliases", "a"), ("paths", "/p")]).2 =
      [("aliases", "a"), ("paths", "/p")] ∧
    (foreach_repo_callback (fun _ _ => 1) [("aliases", "a"), ("paths", "/p")]).1 ≠ 0 ∧
    (foreach_repo (fun _ _ => 1) ⟨[⟨1, "a", "/p"⟩], 2⟩).1 = -1 := by
  refine ⟨C9_callback_or_accumulation.1 (fun _ _ => 1) [("aliases", "a"), ("paths", "/p")],
    by decide, ?_⟩
  exact C9_callback_or_accumulation.2.2.2 (fun _ _ => 1) ⟨[⟨1, "a", "/p"⟩], 2⟩
    [("aliases", "a"), ("paths", "/p")] (by decide) (by decide)

/-- Claim C10, confirmed.  `get_schema_version` returns the sentinel `-1`
when the version query fails outright and when the callback rejects the
delivered stamp (absent or malformed); a stamp that genuinely parses to `-1`
produces the same value, so the two cases are indistinguishable at the
`get_db_handle` interface; and in every such case the handle is rejected,
because `-1 ≠ SCHEMA_VERSION = 1`. -/
theorem C10_error_sentinel :
    (∀ v0, get_schema_version none v0 = -1) ∧
    (∀ v0 row rest, (schema_version_callback row).2 ≠ 0 →
      get_schema_version (some (row :: rest)) v0 = -1) ∧
    (∀ v0, get_schema_version (some [[("schema_version", "-1")]]) v0 = -1) ∧
    (∀ w path, w.fileExists = true → w.openOk = true →
      get_schema_version w.pragmaRows w.uninitInt = -1 →
      (get_db_handle (some path) w).1 = none) := by
  refine ⟨fun _ => rfl, ?_, fun _ => rfl, ?_⟩
  · intro v0 row rest hbad
    simp [get_schema_version, exec_schema_query, hbad, SQLITE_ABORT, SQLITE_OK]
  · intro w path hfe hopen hm1
    have hne : get_schema_version w.pragmaRows w.uninitInt ≠ SCHEMA_VERSION := by
      rw [hm1]
      decide
    simp [get_db_handle, hfe, hopen, hne]

/-- Witness for `C10_error_sentinel`: a failing query, a malformed stamp and
a stamp reading `-1` all produce the sentinel, and such a store is refused. -/
theorem C10_error_sentinel_witness :
    get_schema_version none 7 = -1 ∧
    get_schema_version (some [[("schema_version", "bogus")]]) 7 = -1 ∧
    get_schema_version (some [[("schema_version", "-1")]]) 7 = -1 ∧
    (get_db_handle (some "/home/user/.watchgit.db")
      ⟨true, 2, true, true, true, true, none, 7, emptyDB⟩).1 = none :=
  ⟨C10_error_sentinel.1 7,
    C10_error_sentinel.2.1 7 [("schema_version", "bogus")] [] (by decide),
    C10_error_sentinel.2.2.1 7,
    C10_error_sentinel.2.2.2 ⟨true, 2, true, true, true, true, none, 7, emptyDB⟩
      "/home/user/.watchgit.db" rfl rfl rfl⟩

/-- Claim C8, corrected.  `remove_repo_from_db` on a store with no matching
alias returns success and leaves the entries unchanged — provided the alias
is free of double-quote (and NUL) characters and its token does not resolve
to a column of `repos_table`.  A quote-bearing alias makes the interpolated
DELETE statement fail to parse, so the remove reports an engine error even
though zero rows matched, and a column-name alias such as `aliases` makes
the DELETE a column comparison that can remove rows the caller never named
(see the counterexample for both). -/
theorem C8_remove_missing_alias_ok (db : ReposDB) (aname : String)
    (ha : CleanStr aname) (hcol : resolveToken aname = WhereRhs.lit aname)
    (hno : ∀ e ∈ db.entries, e.aliases ≠ aname) :
    remove_repo_from_db db aname = (SQLITE_OK, db) := by
  unfold remove_repo_from_db
  rw [show remove_query aname = deleteAliasPre ++ aname ++ quoteStr from rfl,
    parseWhereAliasStmt_query deleteAliasPre aname ha.1, Option.elim_some, hcol]
  show (SQLITE_OK, (⟨db.entries.filter (fun e => !(e.aliases == aname)),
    db.nextId⟩ : ReposDB)) = (SQLITE_OK, db)
  have hf : db.entries.filter (fun e => !(e.aliases == aname)) = db.entries :=
    List.filter_eq_self.mpr (fun e he => by simp [hno e he])
  rw [hf]

/-- Claim C8, counterexample to the claim as stated: removing the quote-
bearing alias `x"y` from a store that contains no entry at all (so certainly
none with that alias) reports `SQLITE_ERROR`, not success.  And removing the
quote-free alias `aliases` from a store with no entry of that alias runs
`WHERE aliases=aliases`, which holds of every row: the call reports success
but empties the store instead of leaving it unchanged. -/
theorem C8_counterexample :
    remove_repo_from_db emptyDB "x\x22y" = (SQLITE_ERROR, emptyDB) ∧
    SQLITE_ERROR ≠ SQLITE_OK ∧
    remove_repo_from_db ⟨[⟨1, "a", "/p"⟩], 2⟩ "aliases" =
      (SQLITE_OK, ⟨[], 2⟩) ∧
    (⟨[], 2⟩ : ReposDB) ≠ ⟨[⟨1, "a", "/p"⟩], 2⟩ := by decide

/-- Witness for `C8_remove_missing_alias_ok` at a concrete input. -/
theorem C8_remove_missing_alias_ok_witness :
    CleanStr "b" ∧
    remove_repo_from_db ⟨[⟨1, "a", "/p"⟩], 2⟩ "b" =
      (SQLITE_OK, ⟨[⟨1, "a", "/p"⟩], 2⟩) := by
  refine ⟨by decide, ?_⟩
  exact C8_remove_missing_alias_ok ⟨[⟨1, "a", "/p"⟩], 2⟩ "b" (by decide)
    (by decide) (by decide)


end WatchGit
